import Mathlib

set_option maxRecDepth 8000
set_option maxHeartbeats 1600000

/-!
Shallow embedding of `main.py` (a single-asset crypto analysis bot) and
proofs about the behaviour its specification claims.  Python numbers are
modelled as rationals, fallible code as `Except PyError`, HTTP traffic as
explicit response values handed to the functions that would perform the
request, and the sequence of upstream requests a pipeline run performs as an
explicit trace list.
-/

/-- Kinds of Python exception the modelled code paths can raise. -/
inductive PyError where
  | httpError (status : Nat)
  | keyError (key : String)
  | attributeError
  | indexError
  | typeError
  | valueError
  | zeroDivisionError
  deriving DecidableEq

deriving instance DecidableEq for Except

/--
Python `f-string` `.2f` formatting of a float, modelled on rationals: the
value is rounded to two decimal digits and printed with exactly two digits
after the point.  (CPython rounds the underlying binary float half-to-even;
the model rounds the rational half-up.  The two agree except at exact
decimal ties, which no theorem below evaluates.)
-/
def pyFmt2 (q : ℚ) : String :=
  let r : ℤ := ⌊q * 100 + 1 / 2⌋
  let a : ℕ := r.natAbs
  let frac : ℕ := a % 100
  (if q < 0 then "-" else "") ++ toString (a / 100) ++ "." ++
    (if frac < 10 then "0" ++ toString frac else toString frac)

/-- `.2f` formatting of a possibly-undefined (NaN) float: Python prints `nan`. -/
def pyFmt2Opt : Option ℚ → String
  | none => "nan"
  | some q => pyFmt2 q

/-- Split a digit list (least significant first) into groups of three. -/
def chunk3 {α : Type} : List α → List (List α)
  | [] => []
  | a :: b :: c :: rest => [a, b, c] :: chunk3 rest
  | l => [l]

/-- Decimal digits of a natural number with thousands separators, as in Python `f"\x7bn:,\x7d"`. -/
def commaNat (n : ℕ) : String :=
  let parts := (chunk3 (toString n).data.reverse).map List.reverse
  String.intercalate "," (parts.reverse.map fun l => String.mk l)

/--
Decimal digits of a fractional part `f` (with `0 ≤ f < 1`), up to `fuel`
digits.  Python floats always have a finite decimal expansion; the fuel
bound only truncates values no theorem below evaluates.
-/
def fracDigits : ℕ → ℚ → String
  | 0, _ => ""
  | fuel + 1, f =>
    if f = 0 then ""
    else toString ⌊f * 10⌋₊ ++ fracDigits fuel (f * 10 - (⌊f * 10⌋₊ : ℚ))

/--
Python `f"\x7bx:,\x7d"` formatting: thousands separators, no forced decimal
places.  A JSON integer renders with no fractional part; a non-integral
float renders its fractional digits after a point.
-/
def pyComma (q : ℚ) : String :=
  (if q < 0 then "-" else "") ++ commaNat ⌊|q|⌋₊ ++
    (if q.den = 1 then "" else "." ++ fracDigits 20 (|q| - (⌊|q|⌋₊ : ℚ)))

/--
One iteration bound for the `human_format` loop: each pass divides by
1000, so far fewer than `⌊|q|⌋₊ + 1` guard checks ever happen (proved
below); the fuel is a device that makes the while-loop structurally
recursive, and never runs out.
-/
def hfFuel (q : ℚ) : ℕ := ⌊|q|⌋₊ + 1

/-- The `while abs(num) >= 1000: magnitude += 1; num /= 1000.0` loop of `human_format`. -/
def hfLoop : ℕ → ℚ → ℚ × ℕ
  | 0, q => (q, 0)
  | fuel + 1, q =>
    if 1000 ≤ |q| then
      let p := hfLoop fuel (q / 1000)
      (p.1, p.2 + 1)
    else (q, 0)

/-- Final `num` and `magnitude` of the `human_format` loop. -/
def hfSteps (q : ℚ) : ℚ × ℕ := hfLoop (hfFuel q) q

/-- The suffix list `['', 'K', 'M', 'B', 'T']` of `human_format`. -/
def suffixes : List String := ["", "K", "M", "B", "T"]

/--
`human_format(num)` from `main.py`: repeatedly divide by 1000, then format
with two decimals and the magnitude suffix.  The list index raises
`IndexError` when the magnitude exceeds 4 (the code does not clamp).
-/
def human_format (q : ℚ) : Except PyError String :=
  let p := hfSteps q
  match suffixes[p.2]? with
  | some suf => .ok (pyFmt2 p.1 ++ suf)
  | none => .error .indexError

/-- `human_format` applied to a value that may be Python `None`
(`float(None)` raises `TypeError`), as happens for a missing supply field. -/
def hfOpt : Option ℚ → Except PyError String
  | none => .error .typeError
  | some q => human_format q

/-- Python `str.lower()`, per character (the symbols involved are ASCII). -/
def pyLower (s : String) : String := String.mk (s.data.map Char.toLower)

/-- Python `str.upper()`, per character. -/
def pyUpper (s : String) : String := String.mk (s.data.map Char.toUpper)

/-- One entry of the CoinGecko `/coins/list` payload. -/
structure Coin where
  symbol : String
  id : String
  deriving DecidableEq

/--
`symbol_to_id(symbol)` from `main.py`: lower-case the query and return the
`id` of the first coin whose lower-cased symbol equals it, else `None`.
The cached provider list is passed explicitly.
-/
def symbol_to_id (symbol : String) (coins : List Coin) : Option String :=
  let s := pyLower symbol
  match coins.find? (fun c => pyLower c.symbol == s) with
  | some c => some c.id
  | none => none

/-- An HTTP response handed to a client function: status code plus decoded body. -/
structure HttpResp (α : Type) where
  status : ℕ
  body : α
  deriving DecidableEq

/-- `requests.Response.raise_for_status` raises exactly for 4xx and 5xx codes. -/
def raiseForStatus (status : ℕ) : Bool := 400 ≤ status && status < 600

/--
The `market_data` sub-object of a CoinGecko `/coins/id` payload.  Each field
is `none` when the key path is absent from the JSON (for the nested `usd`
lookups, absence of either level raises the same way and is collapsed into
one `Option`).
-/
structure MarketData where
  current_price_usd : Option ℚ
  market_cap_usd : Option ℚ
  total_volume_usd : Option ℚ
  circulating_supply : Option ℚ
  total_supply : Option ℚ
  deriving DecidableEq

/-- A CoinGecko `/coins/id` payload as consumed by `fetch_market_overview`. -/
structure MarketPayload where
  name : Option String
  symbol : Option String
  market_data : Option MarketData
  description_en : Option String
  deriving DecidableEq

/-- The overview dict built by `fetch_market_overview`. -/
structure Overview where
  name : Option String
  symbol : String
  current_price : ℚ
  market_cap : ℚ
  volume_24h : ℚ
  circulating_supply : Option ℚ
  total_supply : Option ℚ
  description : String
  deriving DecidableEq

/--
`fetch_market_overview(coin_id)` from `main.py`, applied to the provider
response.  `raise_for_status` throws on 4xx/5xx; `data["market_data"]`
throws `KeyError` when absent; in the overview dict literal,
`data.get("symbol").upper()` throws `AttributeError` when `symbol` is
absent and the bracket lookups of the three `usd` figures throw `KeyError`;
`data.get("name")`, `md.get("circulating_supply")`, `md.get("total_supply")`
and the description default tolerate absence.  Field evaluation follows the
source order of the dict literal.
-/
def fetch_market_overview (resp : HttpResp MarketPayload) : Except PyError Overview :=
  if raiseForStatus resp.status then .error (.httpError resp.status)
  else
    match resp.body.market_data with
    | none => .error (.keyError "market_data")
    | some md =>
      match resp.body.symbol with
      | none => .error .attributeError
      | some sym =>
        match md.current_price_usd with
        | none => .error (.keyError "current_price")
        | some price =>
          match md.market_cap_usd with
          | none => .error (.keyError "market_cap")
          | some mcap =>
            match md.total_volume_usd with
            | none => .error (.keyError "total_volume")
            | some vol =>
              .ok { name := resp.body.name
                    symbol := pyUpper sym
                    current_price := price
                    market_cap := mcap
                    volume_24h := vol
                    circulating_supply := md.circulating_supply
                    total_supply := md.total_supply
                    description := String.mk ((resp.body.description_en.getD "").data.take 400) }

/--
`fetch_ohlc(coin_id, days)` from `main.py`, applied to the provider
response: raise on 4xx/5xx, `KeyError` if the payload lacks `prices`, else
keep the closing-price column of the `[timestamp, price]` rows (the
timestamp index is not consumed by any later step).
-/
def fetch_ohlc (resp : HttpResp (Option (List (ℤ × ℚ)))) : Except PyError (List ℚ) :=
  if raiseForStatus resp.status then .error (.httpError resp.status)
  else
    match resp.body with
    | none => .error (.keyError "prices")
    | some prices => .ok (prices.map fun p => p.2)

/-- One smoothing step `e \x27 = a*x + (1-a)*e` of an exponential moving average. -/
def emaStep (a : ℚ) (e x : ℚ) : ℚ := a * x + (1 - a) * e

/--
`ta.sma(close, length)` at the final row: the mean of the trailing
`length` closes, `none` (NaN) when fewer rows exist.
-/
def smaLast (len : ℕ) (xs : List ℚ) : Option ℚ :=
  if xs.length < len ∨ len = 0 then none
  else some ((xs.drop (xs.length - len)).sum / (len : ℚ))

/--
`ta.ema(close, length)` as a column: undefined for the first `length - 1`
rows, seeded with the simple average of the first `length` closes, then
smoothed with `a = 2/(length+1)` (the default `sma=True` seeding of the
TA library).
-/
def emaSeries (len : ℕ) (xs : List ℚ) : List (Option ℚ) :=
  if xs.length < len ∨ len = 0 then List.replicate xs.length none
  else
    let a : ℚ := 2 / ((len : ℚ) + 1)
    let seed : ℚ := (xs.take len).sum / (len : ℚ)
    List.replicate (len - 1) (none : Option ℚ) ++
      (List.scanl (emaStep a) seed (xs.drop len)).map some

/-- Value of a derived column at the final row. -/
def lastO (l : List (Option ℚ)) : Option ℚ := l.getLast?.join

/-- `ta.ema` at the final row. -/
def emaLast (len : ℕ) (xs : List ℚ) : Option ℚ := lastO (emaSeries len xs)

/--
Wilder smoothing (`rma`) at the final row: seeded with the simple average
of the first `length` values, then smoothed with `a = 1/length`.
-/
def rmaLast (len : ℕ) (xs : List ℚ) : Option ℚ :=
  if xs.length < len ∨ len = 0 then none
  else some ((xs.drop len).foldl (emaStep (1 / (len : ℚ))) ((xs.take len).sum / (len : ℚ)))

/-- `close.diff()`: successive differences of the closing prices. -/
def diffs (xs : List ℚ) : List ℚ := List.zipWith (fun a b => a - b) (xs.drop 1) xs

/--
`ta.rsi(close, 14)` at the final row, with the TA-library formula
`100 * avg_gain / (avg_gain + avg_loss)` over Wilder-smoothed gains and
losses.  When both averages are zero (a flat series) the float division is
`0/0 = NaN`: no exception, an undefined value, modelled as `none`.
-/
def rsiLast (len : ℕ) (xs : List ℚ) : Option ℚ :=
  let gains := (diffs xs).map fun d => max d 0
  let losses := (diffs xs).map fun d => max (-d) 0
  match rmaLast len gains, rmaLast len losses with
  | some g, some l => if g + l = 0 then none else some (100 * g / (g + l))
  | _, _ => none

/-- Pointwise subtraction of two derived columns (NaN-propagating). -/
def sub2 : Option ℚ → Option ℚ → Option ℚ
  | some a, some b => some (a - b)
  | _, _ => none

/-- The `MACD_12_26_9` column: `ema(close,12) - ema(close,26)`. -/
def macdSeries (xs : List ℚ) : List (Option ℚ) :=
  List.zipWith sub2 (emaSeries 12 xs) (emaSeries 26 xs)

/-- `MACD_12_26_9` at the final row. -/
def macdLast (xs : List ℚ) : Option ℚ := lastO (macdSeries xs)

/-- The signal line `MACDs_12_26_9` at the final row: a 9-period ema of the
defined part of the MACD column. -/
def macdSignalLast (xs : List ℚ) : Option ℚ :=
  emaLast 9 ((macdSeries xs).filterMap id)

/-- Sample variance (`ddof = 1`, the pandas default) of the trailing window. -/
def varLast (len : ℕ) (xs : List ℚ) : Option ℚ :=
  if xs.length < len ∨ len < 2 then none
  else
    let w := xs.drop (xs.length - len)
    let m := w.sum / (len : ℚ)
    some ((w.map fun x => (x - m) ^ 2).sum / ((len : ℚ) - 1))

/--
Rational approximation of the float square root used by the standard
deviation: exact at `0` and at perfect squares of integers — the only
inputs any theorem below evaluates — and within `10 ^ (-6)` elsewhere.
-/
def ratSqrt (q : ℚ) : ℚ :=
  if q ≤ 0 then 0
  else (Nat.sqrt (q.num.toNat * q.den * 10 ^ 12) : ℚ) / ((q.den : ℚ) * 10 ^ 6)

/-- `ta.bbands(close)` (window 20, 2 standard deviations, matching the
column names `BBL_20_2.0`/`BBM_20_2.0`/`BBU_20_2.0` the report reads) at
the final row: `(lower, middle, upper)`. -/
def bbLast (xs : List ℚ) : Option ℚ × Option ℚ × Option ℚ :=
  match smaLast 20 xs, varLast 20 xs with
  | some m, some v =>
    let dev := 2 * ratSqrt v
    (some (m - dev), some m, some (m + dev))
  | _, _ => (none, none, none)

/-- The final row of the indicator frame assembled by `compute_technicals`. -/
structure TechLatest where
  SMA20 : Option ℚ
  SMA50 : Option ℚ
  SMA200 : Option ℚ
  EMA20 : Option ℚ
  EMA50 : Option ℚ
  EMA200 : Option ℚ
  RSI : Option ℚ
  MACD : Option ℚ
  MACDs : Option ℚ
  BBL : Option ℚ
  BBM : Option ℚ
  BBU : Option ℚ
  deriving DecidableEq

/--
`compute_technicals(df)` from `main.py`, restricted to the final row —
the only row the caller reads (`df_ta.iloc[-1]`).  Rows whose window is
not yet satisfied are NaN (`none`), per the data-model invariant.
-/
def compute_technicals (closes : List ℚ) : TechLatest :=
  { SMA20 := smaLast 20 closes
    SMA50 := smaLast 50 closes
    SMA200 := smaLast 200 closes
    EMA20 := emaLast 20 closes
    EMA50 := emaLast 50 closes
    EMA200 := emaLast 200 closes
    RSI := rsiLast 14 closes
    MACD := macdLast closes
    MACDs := macdSignalLast closes
    BBL := (bbLast closes).1
    BBM := (bbLast closes).2.1
    BBU := (bbLast closes).2.2 }

/-- Min of a series, with pandas returning the sole element for singletons;
the `[]` case is unreachable at every call site (guarded by non-emptiness). -/
def listMinD : List ℚ → ℚ
  | [] => 0
  | x :: xs => xs.foldl min x

/-- Max of a series; the `[]` case is unreachable at every call site. -/
def listMaxD : List ℚ → ℚ
  | [] => 0
  | x :: xs => xs.foldl max x

/-- The eight block-height glyphs used by the `sparklines` library. -/
def blockGlyphs : List Char := ['▁', '▂', '▃', '▄', '▅', '▆', '▇', '█']

/--
One line of `sparklines(values)`: one glyph per value, scaled to the min
and max of the input (a constant series renders a constant glyph).  The
exact bin rounding of the library is approximated; every claim below
depends only on the one-glyph-per-point structure and the glyph count.
-/
def sparkline (l : List ℚ) : String :=
  let lo := listMinD l
  let hi := listMaxD l
  String.mk (l.map fun v =>
    blockGlyphs.getD (if hi = lo then 4 else min 7 ⌊(v - lo) * 8 / (hi - lo)⌋₊) '█')

/-- Python slice `series[i::k]` for `k ≥ 1`: the elements whose offset from
`i` is a multiple of `k`, tracked here by an absolute index. -/
def strideAux {α : Type} (k : ℕ) : ℕ → List α → List α
  | _, [] => []
  | i, x :: rest => if i % k = 0 then x :: strideAux k (i + 1) rest else strideAux k (i + 1) rest

/-- Python slice `series[::k]` for `k ≥ 1`. -/
def strideList {α : Type} (l : List α) (k : ℕ) : List α := strideAux k 0 l

/--
`build_ascii_chart(series, width=60)` from `main.py`: render every point
when the series is shorter than `width`; otherwise downsample with stride
`len(series) // width`.  `width = 0` makes the stride computation raise
`ZeroDivisionError`, modelled as `none`.
-/
def build_ascii_chart (series : List ℚ) (width : ℕ := 60) : Option String :=
  if series.length < width then some (sparkline series)
  else if width = 0 then none
  else some (sparkline (strideList series (series.length / width)))

/--
Outcome of `requests.get(FNG_API, timeout=10)` followed by JSON decoding:
either the request itself raised (timeout, connection failure), or a
response arrived with some status whose body either was malformed —
not JSON, or without the `data[0]` entry or its `value` /
`value_classification` keys, all collapsed into `none` — or carried the
two sentiment strings.
-/
inductive SentResp where
  | netFail
  | resp (status : ℕ) (body : Option (String × String))
  deriving DecidableEq

/--
Lines 134–140 of `main.py`: the sentiment try/except.  An exception while
fetching or decoding yields the sentinel pair; note the response status is
never inspected, so a non-2xx response with a well-formed payload is used
as a success.
-/
def fngRead : SentResp → String × String
  | .netFail => ("N/A", "Unavailable")
  | .resp _ none => ("N/A", "Unavailable")
  | .resp _ (some vc) => vc

/-- Python `f"\x7bx\x7d"` display of an optional string: `None` prints as `"None"`. -/
def pyShowOptStr : Option String → String
  | some s => s
  | none => "None"

/-- Python `description.replace(chr(10), " ")`: the pattern is a single
character, so the replacement is a character map. -/
def pyReplaceNl (s : String) : String :=
  String.mk (s.data.map fun c => if c = '\n' then ' ' else c)

/--
The monetary strings of the report, in source evaluation order (market
cap and volume on line 146, circulating and total supply on line 148):
any `human_format` failure aborts report assembly with that exception.
`total_supply` goes through Python truthiness: `None` and `0` both render
as the infinity sign.
-/
def moneyStrs (o : Overview) : Except PyError (String × String × String × String) := do
  let mcS ← human_format o.market_cap
  let volS ← human_format o.volume_24h
  let circS ← hfOpt o.circulating_supply
  let totS ←
    match o.total_supply with
    | some ts => if ts = 0 then pure "∞" else human_format ts
    | none => pure "∞"
  pure (mcS, volS, circS, totS)

/-- The report lines of `analyze_asset` (lines 143–185 of `main.py`), given
the already-formatted monetary strings. -/
def mkLines (o : Overview) (t : TechLatest) (support resistance : ℚ) (chart : String)
    (fng : String × String) (ms : String × String × String × String) : List String :=
  [ "⸻",
    "🪙 Overview — " ++ pyShowOptStr o.name ++ " (" ++ o.symbol ++ ")",
    "Price: $" ++ pyComma o.current_price ++ " | Market Cap: $" ++ ms.1 ++
      " | 24h Vol: $" ++ ms.2.1,
    "Supply: " ++ ms.2.2.1 ++ " / " ++ ms.2.2.2 ]
  ++ (if o.description ≠ "" then ["Utility: " ++ pyReplaceNl o.description ++ "…"] else [])
  ++ [ "\n📈 Technical Analysis",
    "SMA(20/50/200): " ++ pyFmt2Opt t.SMA20 ++ ", " ++ pyFmt2Opt t.SMA50 ++ ", " ++
      pyFmt2Opt t.SMA200,
    "EMA(20/50/200): " ++ pyFmt2Opt t.EMA20 ++ ", " ++ pyFmt2Opt t.EMA50 ++ ", " ++
      pyFmt2Opt t.EMA200,
    "RSI(14): " ++ pyFmt2Opt t.RSI,
    "MACD: " ++ pyFmt2Opt t.MACD ++ " | Signal: " ++ pyFmt2Opt t.MACDs,
    "Bollinger Bands (20): Lower " ++ pyFmt2Opt t.BBL ++ " | Middle " ++ pyFmt2Opt t.BBM ++
      " | Upper " ++ pyFmt2Opt t.BBU,
    "Support (30d): " ++ pyFmt2 support ++ " | Resistance (30d): " ++ pyFmt2 resistance,
    "Price Chart: " ++ chart,
    "\n📰 Sentiment Analysis",
    "Fear & Greed Index: " ++ fng.1 ++ " (" ++ fng.2 ++ ")",
    "Social Sentiment: 🔧 Not implemented (Twitter/Reddit API required)",
    "Whale Activity: 🔧 Not implemented (Whale Alert API required)",
    "\n🔗 On-Chain Metrics",
    "Active Addresses: 🔧 Not implemented (Glassnode)",
    "Network Fees/Revenue: 🔧 Not implemented",
    "Token Velocity: 🔧 Not implemented",
    "\n📊 Tokenomics & Fundamentals",
    "Allocation Breakdown: 🔧 Not available via free API",
    "Vesting Schedule: 🔧 Not available",
    "Emission / Inflation: 🔧 Not available",
    "Governance: 🔧 Not available",
    "⸻" ]

/-- Report assembly: format the monetary aggregates (which can raise), then
emit the fixed line sequence. -/
def buildLines (o : Overview) (t : TechLatest) (support resistance : ℚ) (chart : String)
    (fng : String × String) : Except PyError (List String) :=
  (moneyStrs o).map (mkLines o t support resistance chart fng)

/-- The not-found message returned by `analyze_asset` when symbol resolution fails. -/
def notFoundMsg (symbol : String) : String :=
  "❌ Asset symbol \x27" ++ symbol ++ "\x27 not found on CoinGecko."

/-- The upstream requests a pipeline run can perform, in order. -/
inductive Req where
  | resolve
  | fetchOverview (id : String)
  | fetchOhlc (id : String)
  | fetchSentiment
  deriving DecidableEq

/-- Everything the outside world would hand one request: the cached coin
list and the three upstream responses. -/
structure Env where
  coins : List Coin
  overviewResp : HttpResp MarketPayload
  ohlcResp : HttpResp (Option (List (ℤ × ℚ)))
  sentiment : SentResp
  deriving DecidableEq

/--
`analyze_asset(symbol)` from `main.py` up to the final join, paired with
the trace of upstream requests performed.  Branch order follows the
source: resolution, overview fetch, history fetch, `iloc[-1]` (which
raises `IndexError` on an empty frame, before the sentiment request),
support/resistance, sentiment fetch, report assembly.  The chart is
rendered with the default width 60, for which `build_ascii_chart` never
returns `none`, so the `getD` default is unreachable.
-/
def analyze_pipeline (env : Env) (symbol : String) : Except PyError (List String) × List Req :=
  match symbol_to_id symbol env.coins with
  | none => (.ok [notFoundMsg symbol], [.resolve])
  | some coin_id =>
    match fetch_market_overview env.overviewResp with
    | .error e => (.error e, [.resolve, .fetchOverview coin_id])
    | .ok overview =>
      match fetch_ohlc env.ohlcResp with
      | .error e => (.error e, [.resolve, .fetchOverview coin_id, .fetchOhlc coin_id])
      | .ok closes =>
        if closes.isEmpty then
          (.error .indexError, [.resolve, .fetchOverview coin_id, .fetchOhlc coin_id])
        else
          let t := compute_technicals closes
          let recent := closes.drop (closes.length - 30)
          let support := listMinD recent
          let resistance := listMaxD recent
          let fng := fngRead env.sentiment
          let chart := (build_ascii_chart closes 60).getD ""
          (buildLines overview t support resistance chart fng,
            [.resolve, .fetchOverview coin_id, .fetchOhlc coin_id, .fetchSentiment])

/-- `analyze_asset(symbol)`: the pipeline result joined into the report text. -/
def analyze_asset (env : Env) (symbol : String) : Except PyError String × List Req :=
  let p := analyze_pipeline env symbol
  (p.1.map (String.intercalate "\n"), p.2)

/-- Python `str.strip()` with no arguments: drop leading and trailing whitespace. -/
def pyStrip (s : String) : String :=
  String.mk (((s.data.dropWhile Char.isWhitespace).reverse.dropWhile Char.isWhitespace).reverse)

/-- Worker for `pySplit`: walk the characters, accumulating the current
token (reversed) and emitting it at each whitespace boundary. -/
def splitWsAux : List Char → List Char → List String
  | [], acc => if acc.isEmpty then [] else [String.mk acc.reverse]
  | c :: rest, acc =>
    if c.isWhitespace then
      if acc.isEmpty then splitWsAux rest [] else String.mk acc.reverse :: splitWsAux rest []
    else splitWsAux rest (c :: acc)

/-- Python `str.split()` with no arguments: split on whitespace runs,
discarding empty pieces. -/
def pySplit (s : String) : List String := splitWsAux s.data []

/-- A JSON response body from the `/analyze` endpoint: a report or an error string. -/
inductive RespBody where
  | report (s : String)
  | error (s : String)
  deriving DecidableEq

/-- `str(exc)` for the modelled exceptions, as CPython prints them. -/
def errString : PyError → String
  | .httpError st => toString st ++ " Error for url"
  | .keyError k => "\x27" ++ k ++ "\x27"
  | .attributeError => "\x27NoneType\x27 object has no attribute \x27upper\x27"
  | .indexError => "index out of bounds"
  | .typeError => "float() argument must be a string or a real number, not \x27NoneType\x27"
  | .valueError => "slice step cannot be zero"
  | .zeroDivisionError => "integer division or modulo by zero"

/--
`handle_analyze` from `main.py`: strip the command, reject an empty one
with a 400 before anything else runs, parse the symbol as the upper-cased
last whitespace token, then run the pipeline, answering 200 with the
report or 500 with the stringified exception.  The `getLast?` miss is
unreachable: a non-empty stripped command always splits into at least one
token (it is kept as the `IndexError` Python would raise).
-/
def handle_analyze (env : Env) (body : Option String) : (ℕ × RespBody) × List Req :=
  let command := pyStrip (body.getD "")
  if command = "" then ((400, .error "No command provided."), [])
  else
    match (pySplit command).getLast? with
    | none => ((500, .error (errString .indexError)), [])
    | some tok =>
      let symbol := pyUpper tok
      let p := analyze_asset env symbol
      match p.1 with
      | .ok report => ((200, .report report), p.2)
      | .error e => ((500, .error (errString e)), p.2)

/-- A complete, well-formed overview payload used by the concrete runs below. -/
def payloadC : MarketPayload :=
  { name := some "Bitcoin"
    symbol := some "btc"
    market_data := some
      { current_price_usd := some 50000
        market_cap_usd := some 500
        total_volume_usd := some 600
        circulating_supply := some 700
        total_supply := some 800 }
    description_en := some "Digital gold" }

/-- A 250-day flat price history, one row per day. -/
def pricesC : List (ℤ × ℚ) := (List.range 250).map fun i => ((i : ℤ), (100 : ℚ))

/-- The closing prices of `pricesC`. -/
def closesC : List ℚ := pricesC.map fun p => p.2

/-- The overview `fetch_market_overview` builds from `payloadC`. -/
def ovC : Overview :=
  { name := some "Bitcoin"
    symbol := "BTC"
    current_price := 50000
    market_cap := 500
    volume_24h := 600
    circulating_supply := some 700
    total_supply := some 800
    description := "Digital gold" }

/-- A healthy environment — resolvable symbol, complete overview, 250 days
of history — with the sentiment outcome left as a parameter. -/
def envWith (s : SentResp) : Env :=
  { coins := [⟨"btc", "bitcoin"⟩]
    overviewResp := ⟨200, payloadC⟩
    ohlcResp := ⟨200, some pricesC⟩
    sentiment := s }

/-- The healthy environment with sentiment 25/Fear. -/
def envC3 : Env := envWith (.resp 200 (some ("25", "Fear")))

/-- The healthy environment with a non-2xx sentiment response carrying a
well-formed payload. -/
def envC7cx : Env := envWith (.resp 500 (some ("10", "Extreme Fear")))

/-- The healthy environment with a failed (timed-out) sentiment request. -/
def envC7w : Env := envWith .netFail

/-- A 200 response whose payload lacks `name` and `circulating_supply` but
has every bracket-accessed field. -/
def respC2 : HttpResp MarketPayload :=
  ⟨200,
    { name := none
      symbol := some "btc"
      market_data := some
        { current_price_usd := some 50000
          market_cap_usd := some 500
          total_volume_usd := some 600
          circulating_supply := none
          total_supply := some 800 }
      description_en := none }⟩

/-- An indicator row with every value undefined (NaN), as arises from a
history shorter than every window. -/
def tNone : TechLatest :=
  { SMA20 := none, SMA50 := none, SMA200 := none
    EMA20 := none, EMA50 := none, EMA200 := none
    RSI := none, MACD := none, MACDs := none
    BBL := none, BBM := none, BBU := none }

/-! ### Helper lemmas -/

theorem exceptMap_ok {ε α β : Type} (f : α → β) (a : α) :
    (Except.ok a : Except ε α).map f = .ok (f a) := rfl

theorem exceptIsOk_map {ε α β : Type} (f : α → β) (x : Except ε α) :
    (x.map f).isOk = x.isOk := by cases x <;> rfl

section

attribute [local semireducible] Rat.add Rat.mul Rat.inv Rat.sub Rat.ofScientific

theorem moneyStrs_ovC : moneyStrs ovC = .ok ("500.00", "600.00", "700.00", "800.00") := by decide

/-- Evaluating the pipeline on the healthy fixture: everything but the
sentiment outcome is fixed, the indicator frame stays symbolic. -/
theorem pipeline_envWith (s : SentResp) :
    analyze_pipeline (envWith s) "BTC" =
      (.ok (mkLines ovC (compute_technicals closesC) 100 100
              (String.mk (List.replicate 63 '▅')) (fngRead s)
              ("500.00", "600.00", "700.00", "800.00")),
       [.resolve, .fetchOverview "bitcoin", .fetchOhlc "bitcoin", .fetchSentiment]) := by
  unfold analyze_pipeline
  simp only [envWith,
    show symbol_to_id "BTC" [(⟨"btc", "bitcoin"⟩ : Coin)] = some "bitcoin" from by decide,
    show fetch_market_overview ⟨200, payloadC⟩ = .ok ovC from by decide,
    show fetch_ohlc (⟨200, some pricesC⟩ : HttpResp (Option (List (ℤ × ℚ)))) = .ok closesC
      from by decide,
    show closesC.isEmpty = false from by decide,
    show listMinD (closesC.drop (closesC.length - 30)) = 100 from by decide,
    show listMaxD (closesC.drop (closesC.length - 30)) = 100 from by decide,
    show (build_ascii_chart closesC 60).getD "" = String.mk (List.replicate 63 '▅') from by decide,
    buildLines, moneyStrs_ovC, exceptMap_ok, Bool.false_eq_true, if_false]

end

theorem hfLoop_range : ∀ (m : ℕ) (q : ℚ) (fuel : ℕ), m < fuel →
    (1000:ℚ)^m ≤ |q| → |q| < 1000^(m+1) → hfLoop fuel q = (q / 1000^m, m) := by
  intro m
  induction m with
  | zero =>
    intro q fuel hf h1 h2
    obtain ⟨f, rfl⟩ : ∃ f, fuel = f + 1 := ⟨fuel - 1, by omega⟩
    have : ¬ (1000:ℚ) ≤ |q| := by
      intro hge
      rw [pow_one] at h2
      linarith
    simp [hfLoop, this]
  | succ m ih =>
    intro q fuel hf h1 h2
    obtain ⟨f, rfl⟩ : ∃ f, fuel = f + 1 := ⟨fuel - 1, by omega⟩
    have hge : (1000:ℚ) ≤ |q| := by
      calc (1000:ℚ) = 1000^1 := (pow_one _).symm
      _ ≤ 1000^(m+1) := by
        apply pow_le_pow_right₀ (by norm_num)
        omega
      _ ≤ |q| := h1
    have habs : |q / 1000| = |q| / 1000 := by
      rw [abs_div]
      norm_num
    have h1' : (1000:ℚ)^m ≤ |q / 1000| := by
      rw [habs, le_div_iff₀ (by norm_num : (0:ℚ) < 1000)]
      calc (1000:ℚ)^m * 1000 = 1000^(m+1) := by ring
      _ ≤ |q| := h1
    have h2' : |q / 1000| < 1000^(m+1) := by
      rw [habs, div_lt_iff₀ (by norm_num : (0:ℚ) < 1000)]
      calc |q| < 1000^(m+1+1) := h2
      _ = 1000^(m+1) * 1000 := by ring
    have hfl : hfLoop (f + 1) q = ((hfLoop f (q / 1000)).1, (hfLoop f (q / 1000)).2 + 1) := by
      simp [hfLoop, hge]
    rw [hfl, ih (q / 1000) f (by omega) h1' h2']
    have : q / 1000 / 1000^m = q / 1000^(m+1) := by
      rw [div_div]
      ring_nf
    rw [this]

theorem hfSteps_range (q : ℚ) (m : ℕ) (h1 : (1000:ℚ)^m ≤ |q|) (h2 : |q| < 1000^(m+1)) :
    hfSteps q = (q / 1000^m, m) := by
  apply hfLoop_range m q _ _ h1 h2
  have hcast : ((1000^m : ℕ) : ℚ) = (1000:ℚ)^m := by push_cast; ring
  have hle : (1000^m : ℕ) ≤ ⌊|q|⌋₊ := Nat.le_floor (by rw [hcast]; exact h1)
  have hm : m ≤ ⌊|q|⌋₊ := le_trans (le_of_lt (Nat.lt_pow_self (by norm_num) m)) hle
  unfold hfFuel
  omega

/-! ### Claim C1 -/

/--
Claim C1 (amended): for every `q` whose magnitude `m` (the exponent with
`1000 ^ m ≤ |q| < 1000 ^ (m+1)`, i.e. the floor of `log1000 |q|`) is below
5, `human_format q` returns the two-decimal mantissa `q / 1000 ^ m` — which
lies in `[1, 1000)` — followed by the matching suffix; but when `m ≥ 5`
(that is, `|q| ≥ 1000 ^ 5`) the function raises `IndexError` instead of
clamping to the top suffix, and inputs with `|q| < 1` keep magnitude 0 with
a mantissa below 1, so the claim as stated fails there.
-/
theorem human_format_magnitude (q : ℚ) (m : ℕ)
    (h1 : (1000:ℚ)^m ≤ |q|) (h2 : |q| < 1000^(m+1)) :
    (m < 5 → human_format q = .ok (pyFmt2 (q / 1000^m) ++ suffixes.getD m "") ∧
      1 ≤ |q / 1000^m| ∧ |q / 1000^m| < 1000) ∧
    (5 ≤ m → human_format q = .error .indexError) := by
  have hs := hfSteps_range q m h1 h2
  have hpow : (0:ℚ) < 1000^m := by positivity
  have habs : |q / 1000^m| = |q| / 1000^m := by
    rw [abs_div, abs_of_pos hpow]
  constructor
  · intro hm5
    refine ⟨?_, ?_, ?_⟩
    · unfold human_format
      rw [hs]
      interval_cases m <;> rfl
    · rw [habs, le_div_iff₀ hpow]
      linarith
    · rw [habs, div_lt_iff₀ hpow]
      calc |q| < 1000^(m+1) := h2
      _ = 1000 * 1000^m := by ring
  · intro hm5
    unfold human_format
    rw [hs]
    have hnone : suffixes[m]? = none := by
      apply List.getElem?_eq_none
      simp only [suffixes, List.length_cons, List.length_nil]
      omega
    simp only [hnone]

section

attribute [local semireducible] Rat.add Rat.mul Rat.inv Rat.sub Rat.ofScientific

/-- Witness for C1 at the example of the claim: `12345678` has magnitude 2,
and the formatted result is `12.35M`. -/
theorem human_format_magnitude_witness :
    human_format (12345678:ℚ) = .ok "12.35M" := by
  have habs : |(12345678:ℚ)| = 12345678 := by
    rw [abs_of_pos]
    norm_num
  have h := (human_format_magnitude 12345678 2 (by rw [habs]; norm_num)
    (by rw [habs]; norm_num)).1 (by norm_num)
  rw [h.1]
  decide

/-- Counterexample for C1 as stated: at `n = 10 ^ 15 = 1000 ^ 5` the code
raises `IndexError` instead of returning a value with the clamped top
suffix `T`. -/
theorem human_format_no_clamp_cx : human_format ((10:ℚ)^15) = .error .indexError := by decide

end

/-! ### Claim C2 -/

/--
Claim C2 (amended): `fetch_market_overview` fails exactly when the
response status is 4xx/5xx or the payload lacks `market_data`, `symbol`,
the current price, the market cap, or the 24h volume; a missing `name`,
`circulating_supply` or `total_supply` is tolerated — the overview is
returned with those fields `None` — so `total_supply` is not the only
field whose absence is tolerated, contrary to the claim as stated.
-/
theorem fetch_market_overview_required_fields (resp : HttpResp MarketPayload) :
    ((∃ e, fetch_market_overview resp = .error e) ↔
      (400 ≤ resp.status ∧ resp.status < 600) ∨ resp.body.market_data = none ∨
      resp.body.symbol = none ∨
      (∃ md, resp.body.market_data = some md ∧
        (md.current_price_usd = none ∨ md.market_cap_usd = none ∨
          md.total_volume_usd = none))) ∧
    (∀ ov md, fetch_market_overview resp = .ok ov → resp.body.market_data = some md →
      ov.name = resp.body.name ∧ ov.circulating_supply = md.circulating_supply ∧
      ov.total_supply = md.total_supply) := by
  obtain ⟨st, ⟨nm, sym, mdo, desc⟩⟩ := resp
  by_cases hst : 400 ≤ st ∧ st < 600
  case pos =>
    have hb : raiseForStatus st = true := by
      simp only [raiseForStatus, Bool.and_eq_true, decide_eq_true_eq]
      omega
    simp [fetch_market_overview, hb, hst]
  case neg =>
    have hb : raiseForStatus st = false := by
      simp only [raiseForStatus, Bool.and_eq_true, decide_eq_true_eq,
        Bool.and_eq_false_iff, decide_eq_false_iff_not]
      omega
    cases mdo with
    | none => simp [fetch_market_overview, hb, hst]
    | some md =>
      cases sym with
      | none => simp [fetch_market_overview, hb, hst]
      | some s =>
        obtain ⟨cp, mc, tv, circ, tot⟩ := md
        cases cp <;> cases mc <;> cases tv <;>
          simp [fetch_market_overview, hb, hst]

section

attribute [local semireducible] Rat.add Rat.mul Rat.inv Rat.sub Rat.ofScientific

/-- Witness for C2: on a complete 200 payload the fetch succeeds and no
required field is missing. -/
theorem fetch_market_overview_required_fields_witness :
    ¬ (∃ e, fetch_market_overview ⟨200, payloadC⟩ = .error e) := by
  have h := (fetch_market_overview_required_fields ⟨200, payloadC⟩).1
  rw [h]
  decide

/-- Counterexample for C2 as stated: a payload missing `name` and
`circulating_supply` (both claimed required) is accepted, and the partial
overview is returned with those fields `None`. -/
theorem fetch_market_overview_tolerates_missing_cx :
    respC2.body.name = none ∧ respC2.body.market_data.map MarketData.circulating_supply
        = some none ∧
    fetch_market_overview respC2 =
      .ok { name := none, symbol := "BTC", current_price := 50000, market_cap := 500,
            volume_24h := 600, circulating_supply := none, total_supply := some 800,
            description := "" } := by
  refine ⟨rfl, rfl, ?_⟩
  decide

end

/-! ### Claim C3 -/

theorem pad2_spec : ∀ n : Fin 100,
    ((if (n:ℕ) < 10 then "0" ++ toString (n:ℕ) else toString (n:ℕ)).length = 2 ∧
     ((if (n:ℕ) < 10 then "0" ++ toString (n:ℕ) else toString (n:ℕ)).data.all Char.isDigit)
       = true) := by decide

theorem pyFmt2_two_decimals (q : ℚ) :
    ∃ ip f, pyFmt2 q = ip ++ "." ++ f ∧ f.length = 2 ∧ f.data.all Char.isDigit = true := by
  have hlt : (⌊q * 100 + 1/2⌋).natAbs % 100 < 100 := Nat.mod_lt _ (by norm_num)
  have hp := pad2_spec ⟨(⌊q * 100 + 1/2⌋).natAbs % 100, hlt⟩
  exact ⟨(if q < 0 then "-" else "") ++ toString ((⌊q * 100 + 1/2⌋).natAbs / 100),
    (if (⌊q * 100 + 1/2⌋).natAbs % 100 < 10 then "0" ++ toString ((⌊q * 100 + 1/2⌋).natAbs % 100)
     else toString ((⌊q * 100 + 1/2⌋).natAbs % 100)), rfl, hp.1, hp.2⟩

section

attribute [local irreducible] hfSteps

theorem human_format_ok_shape (q : ℚ) (s : String) (h : human_format q = .ok s) :
    ∃ r suf, s = pyFmt2 r ++ suf ∧ suf ∈ suffixes := by
  simp only [human_format] at h
  generalize hsuf : suffixes[(hfSteps q).2]? = x at h
  cases x with
  | some suf =>
    injection h with h
    exact ⟨(hfSteps q).1, suf, h.symm, List.getElem?_mem hsuf⟩
  | none => exact absurd h (by simp)

end

theorem mkLines_mem (o : Overview) (t : TechLatest) (sup res : ℚ) (chart : String)
    (fng : String × String) (ms : String × String × String × String) :
    ("Price: $" ++ pyComma o.current_price ++ " | Market Cap: $" ++ ms.1 ++
        " | 24h Vol: $" ++ ms.2.1) ∈ mkLines o t sup res chart fng ms ∧
    ("SMA(20/50/200): " ++ pyFmt2Opt t.SMA20 ++ ", " ++ pyFmt2Opt t.SMA50 ++ ", " ++
        pyFmt2Opt t.SMA200) ∈ mkLines o t sup res chart fng ms ∧
    ("EMA(20/50/200): " ++ pyFmt2Opt t.EMA20 ++ ", " ++ pyFmt2Opt t.EMA50 ++ ", " ++
        pyFmt2Opt t.EMA200) ∈ mkLines o t sup res chart fng ms ∧
    ("RSI(14): " ++ pyFmt2Opt t.RSI) ∈ mkLines o t sup res chart fng ms ∧
    ("MACD: " ++ pyFmt2Opt t.MACD ++ " | Signal: " ++ pyFmt2Opt t.MACDs)
        ∈ mkLines o t sup res chart fng ms ∧
    ("Bollinger Bands (20): Lower " ++ pyFmt2Opt t.BBL ++ " | Middle " ++ pyFmt2Opt t.BBM ++
        " | Upper " ++ pyFmt2Opt t.BBU) ∈ mkLines o t sup res chart fng ms ∧
    ("Support (30d): " ++ pyFmt2 sup ++ " | Resistance (30d): " ++ pyFmt2 res)
        ∈ mkLines o t sup res chart fng ms ∧
    ("Fear & Greed Index: " ++ fng.1 ++ " (" ++ fng.2 ++ ")")
        ∈ mkLines o t sup res chart fng ms := by
  unfold mkLines
  by_cases hd : o.description = "" <;> simp [hd]

/--
Claim C3 (amended): in every assembled report the indicator values —
SMA/EMA, RSI, MACD and signal, Bollinger bands, support and resistance —
are rendered through the `.2f` formatter, whose output always carries
exactly two decimal digits; the monetary aggregates (market cap, 24h
volume, supply) are rendered through `human_format`, a two-decimal
mantissa plus a `K`/`M`/`B`/`T` power-of-1000 suffix; but the current
price is rendered with the thousands-separator format, not with two
decimal places, so the claim as stated fails for the price.
-/
theorem report_numeric_formatting :
    (∀ q : ℚ, ∃ ip f, pyFmt2 q = ip ++ "." ++ f ∧ f.length = 2 ∧
        f.data.all Char.isDigit = true) ∧
    (∀ o t sup res chart fng lines, buildLines o t sup res chart fng = .ok lines →
      ∃ ms, moneyStrs o = .ok ms ∧ lines = mkLines o t sup res chart fng ms ∧
        ("Price: $" ++ pyComma o.current_price ++ " | Market Cap: $" ++ ms.1 ++
            " | 24h Vol: $" ++ ms.2.1) ∈ lines ∧
        ("SMA(20/50/200): " ++ pyFmt2Opt t.SMA20 ++ ", " ++ pyFmt2Opt t.SMA50 ++ ", " ++
            pyFmt2Opt t.SMA200) ∈ lines ∧
        ("EMA(20/50/200): " ++ pyFmt2Opt t.EMA20 ++ ", " ++ pyFmt2Opt t.EMA50 ++ ", " ++
            pyFmt2Opt t.EMA200) ∈ lines ∧
        ("RSI(14): " ++ pyFmt2Opt t.RSI) ∈ lines ∧
        ("MACD: " ++ pyFmt2Opt t.MACD ++ " | Signal: " ++ pyFmt2Opt t.MACDs) ∈ lines ∧
        ("Bollinger Bands (20): Lower " ++ pyFmt2Opt t.BBL ++ " | Middle " ++
            pyFmt2Opt t.BBM ++ " | Upper " ++ pyFmt2Opt t.BBU) ∈ lines ∧
        ("Support (30d): " ++ pyFmt2 sup ++ " | Resistance (30d): " ++ pyFmt2 res) ∈ lines) ∧
    (∀ q s, human_format q = .ok s → ∃ r suf, s = pyFmt2 r ++ suf ∧ suf ∈ suffixes) := by
  refine ⟨pyFmt2_two_decimals, ?_, ?_⟩
  · intro o t sup res chart fng lines h
    unfold buildLines at h
    cases hm : moneyStrs o with
    | error e => rw [hm] at h; exact absurd h (by simp [Except.map])
    | ok ms =>
      rw [hm, exceptMap_ok] at h
      obtain rfl : mkLines o t sup res chart fng ms = lines := by
        injection h
      have hmem := mkLines_mem o t sup res chart fng ms
      exact ⟨ms, rfl, rfl, hmem.1, hmem.2.1, hmem.2.2.1, hmem.2.2.2.1, hmem.2.2.2.2.1,
        hmem.2.2.2.2.2.1, hmem.2.2.2.2.2.2.1⟩
  · exact human_format_ok_shape

section

attribute [local semireducible] Rat.add Rat.mul Rat.inv Rat.sub Rat.ofScientific

/-- Witness for C3: a concrete report assembly in which the theorem's
memberships and formatter assignments hold. -/
theorem report_numeric_formatting_witness :
    buildLines ovC tNone 100 100 "" ("25", "Fear") =
      .ok (mkLines ovC tNone 100 100 "" ("25", "Fear")
            ("500.00", "600.00", "700.00", "800.00")) ∧
    ("RSI(14): " ++ pyFmt2Opt tNone.RSI) ∈
      mkLines ovC tNone 100 100 "" ("25", "Fear") ("500.00", "600.00", "700.00", "800.00") := by
  have hb : buildLines ovC tNone 100 100 "" ("25", "Fear") =
      .ok (mkLines ovC tNone 100 100 "" ("25", "Fear")
            ("500.00", "600.00", "700.00", "800.00")) := by decide
  obtain ⟨ms, hms, hl, hprice, hsma, hema, hrsi, hrest⟩ :=
    report_numeric_formatting.2.1 ovC tNone 100 100 "" ("25", "Fear") _ hb
  exact ⟨hb, hrsi⟩

/-- Counterexample for C3 as stated: in a healthy run with price 50000 the
price is rendered as `50,000` — thousands separators, no decimals — not as
the two-decimal `50000.00` the claim requires for every non-aggregate
numeric value. -/
theorem report_price_not_two_decimals_cx :
    (∃ ls, (analyze_pipeline envC3 "BTC").1 = .ok ls ∧
       "Price: $50,000 | Market Cap: $500.00 | 24h Vol: $600.00" ∈ ls) ∧
    pyComma (50000:ℚ) = "50,000" ∧ pyFmt2 (50000:ℚ) = "50000.00" := by
  refine ⟨?_, by decide, by decide⟩
  unfold envC3
  rw [pipeline_envWith]
  refine ⟨_, rfl, ?_⟩
  exact List.Mem.tail _ (List.Mem.tail _ (List.Mem.head _))

end

/-! ### Claim C4 -/

theorem sum_replicate_rat (n : ℕ) (c : ℚ) : (List.replicate n c).sum = (n : ℚ) * c := by
  rw [List.sum_replicate]
  exact nsmul_eq_mul n c

theorem smaLast_replicate (len n : ℕ) (c : ℚ) (h0 : 0 < len) (h : len ≤ n) :
    smaLast len (List.replicate n c) = some c := by
  unfold smaLast
  rw [List.length_replicate, if_neg (by omega : ¬(n < len ∨ len = 0)), List.drop_replicate,
    show n - (n - len) = len from by omega, sum_replicate_rat]
  congr 1
  exact mul_div_cancel_left₀ c (Nat.cast_ne_zero.2 (by omega))

theorem foldl_emaStep_const (a c : ℚ) : ∀ m : ℕ, (List.replicate m c).foldl (emaStep a) c = c := by
  intro m
  induction m with
  | zero => rfl
  | succ m ih =>
    rw [List.replicate_succ, List.foldl_cons, show emaStep a c c = c from by unfold emaStep; ring]
    exact ih

theorem scanl_emaStep_const (a c : ℚ) :
    ∀ m : ℕ, List.scanl (emaStep a) c (List.replicate m c) = List.replicate (m + 1) c := by
  intro m
  induction m with
  | zero => rfl
  | succ m ih =>
    rw [List.replicate_succ, List.scanl_cons,
      show emaStep a c c = c from by unfold emaStep; ring, ih, List.singleton_append,
      ← List.replicate_succ]

theorem getLast?_replicate_succ {α : Type} (m : ℕ) (x : α) :
    (List.replicate (m + 1) x).getLast? = some x := by
  rw [List.replicate_succ']
  exact List.getLast?_concat _

theorem emaLast_replicate (len n : ℕ) (c : ℚ) (h0 : 0 < len) (h : len ≤ n) :
    emaLast len (List.replicate n c) = some c := by
  have hlen : (len : ℚ) ≠ 0 := Nat.cast_ne_zero.2 (by omega)
  unfold emaLast emaSeries
  rw [List.length_replicate, if_neg (by omega : ¬(n < len ∨ len = 0)), List.take_replicate,
    List.drop_replicate, show min len n = len from by omega, sum_replicate_rat,
    mul_div_cancel_left₀ c hlen]
  show lastO (List.replicate (len - 1) (none : Option ℚ) ++
      (List.scanl (emaStep (2 / ((len : ℚ) + 1))) c (List.replicate (n - len) c)).map some)
      = some c
  rw [scanl_emaStep_const, List.map_replicate]
  unfold lastO
  rw [List.getLast?_append, getLast?_replicate_succ]
  rfl

theorem diffs_replicate (n : ℕ) (c : ℚ) :
    diffs (List.replicate n c) = List.replicate (n - 1) (0 : ℚ) := by
  have hz : ∀ m k : ℕ, List.zipWith (fun a b => a - b) (List.replicate m c) (List.replicate k c)
      = List.replicate (min m k) (0 : ℚ) := by
    intro m
    induction m with
    | zero => intro k; simp
    | succ m ih =>
      intro k
      cases k with
      | zero => simp
      | succ k =>
        simp only [List.replicate_succ, List.zipWith_cons_cons, ih k, sub_self,
          Nat.succ_min_succ]
  unfold diffs
  rw [List.drop_replicate, hz, show min (n - 1) n = n - 1 from by omega]

theorem rmaLast_replicate_zero (len m : ℕ) (h0 : 0 < len) (h : len ≤ m) :
    rmaLast len (List.replicate m (0 : ℚ)) = some 0 := by
  unfold rmaLast
  rw [List.length_replicate, if_neg (by omega : ¬(m < len ∨ len = 0)), List.take_replicate,
    List.drop_replicate, show min len m = len from by omega, sum_replicate_rat, mul_zero,
    zero_div, foldl_emaStep_const]

theorem rsiLast_replicate (n : ℕ) (c : ℚ) (h : 15 ≤ n) :
    rsiLast 14 (List.replicate n c) = none := by
  unfold rsiLast
  rw [diffs_replicate, List.map_replicate, List.map_replicate]
  simp only [max_self, neg_zero]
  rw [rmaLast_replicate_zero 14 (n - 1) (by norm_num) (by omega)]
  simp

theorem ratSqrt_zero : ratSqrt 0 = 0 := by
  simp [ratSqrt]

theorem varLast_replicate (len n : ℕ) (c : ℚ) (h2 : 2 ≤ len) (h : len ≤ n) :
    varLast len (List.replicate n c) = some 0 := by
  have hlen : (len : ℚ) ≠ 0 := Nat.cast_ne_zero.2 (by omega)
  unfold varLast
  rw [List.length_replicate, if_neg (by omega : ¬(n < len ∨ len < 2)), List.drop_replicate,
    show n - (n - len) = len from by omega]
  show some (((List.replicate len c).map
      fun x => (x - (List.replicate len c).sum / (len : ℚ)) ^ 2).sum / ((len : ℚ) - 1)) = some 0
  rw [sum_replicate_rat, mul_div_cancel_left₀ c hlen, List.map_replicate]
  simp

theorem bbLast_replicate (n : ℕ) (c : ℚ) (h : 20 ≤ n) :
    bbLast (List.replicate n c) = (some c, some c, some c) := by
  unfold bbLast
  rw [smaLast_replicate 20 n c (by norm_num) h, varLast_replicate 20 n c (by norm_num) h]
  simp [ratSqrt_zero]

/--
Claim C4: on a constant price series of at least 200 days every simple and
exponential moving average (windows 20/50/200) in the final row equals the
constant, the RSI is undefined — the zero price change makes the float
division `0/0` produce NaN rather than raising — and the Bollinger bands
collapse onto the constant (zero width).
-/
theorem compute_technicals_constant (c : ℚ) (n : ℕ) (h : 200 ≤ n) :
    (compute_technicals (List.replicate n c)).SMA20 = some c ∧
    (compute_technicals (List.replicate n c)).SMA50 = some c ∧
    (compute_technicals (List.replicate n c)).SMA200 = some c ∧
    (compute_technicals (List.replicate n c)).EMA20 = some c ∧
    (compute_technicals (List.replicate n c)).EMA50 = some c ∧
    (compute_technicals (List.replicate n c)).EMA200 = some c ∧
    (compute_technicals (List.replicate n c)).RSI = none ∧
    (compute_technicals (List.replicate n c)).BBL = some c ∧
    (compute_technicals (List.replicate n c)).BBM = some c ∧
    (compute_technicals (List.replicate n c)).BBU = some c := by
  simp only [compute_technicals]
  refine ⟨smaLast_replicate 20 n c (by norm_num) (by omega),
    smaLast_replicate 50 n c (by norm_num) (by omega),
    smaLast_replicate 200 n c (by norm_num) (by omega),
    emaLast_replicate 20 n c (by norm_num) (by omega),
    emaLast_replicate 50 n c (by norm_num) (by omega),
    emaLast_replicate 200 n c (by norm_num) (by omega),
    rsiLast_replicate n c (by omega), ?_, ?_, ?_⟩ <;>
  rw [bbLast_replicate n c (by omega)]

/-- Witness for C4 at the example of the claim: 250 days of constant
price 100. -/
theorem compute_technicals_constant_witness :
    (compute_technicals (List.replicate 250 (100:ℚ))).SMA20 = some 100 ∧
    (compute_technicals (List.replicate 250 (100:ℚ))).RSI = none ∧
    (compute_technicals (List.replicate 250 (100:ℚ))).BBU = some 100 := by
  have h := compute_technicals_constant 100 250 (by norm_num)
  exact ⟨h.1, h.2.2.2.2.2.2.1, h.2.2.2.2.2.2.2.2.2⟩

/-! ### Claim C5 -/

theorem find?_first {α : Type} (p : α → Bool) :
    ∀ (l : List α) (x : α), l.find? p = some x →
      ∃ pre post, l = pre ++ x :: post ∧ p x = true ∧ ∀ d ∈ pre, p d = false := by
  intro l
  induction l with
  | nil => intro x h; simp [List.find?] at h
  | cons a t ih =>
    intro x h
    by_cases hp : p a
    · rw [List.find?_cons_of_pos _ hp] at h
      injection h with h
      subst h
      exact ⟨[], t, rfl, hp, by simp⟩
    · rw [List.find?_cons_of_neg _ hp] at h
      obtain ⟨pre, post, rfl, hx, hpre⟩ := ih x h
      refine ⟨a :: pre, post, rfl, hx, ?_⟩
      intro d hd
      rcases List.mem_cons.1 hd with rfl | hd
      · simpa using hp
      · exact hpre d hd

/--
Claim C5: `symbol_to_id` performs a case-insensitive exact match on the
symbol — it returns the identifier of the first matching entry in provider
list order and `None` exactly when no entry matches; in particular `btc`,
`BTC` and `Btc` all resolve to `bitcoin` against a list containing the
`btc`/`bitcoin` entry, and an absent symbol yields `None`.
-/
theorem symbol_to_id_spec :
    (∀ (s : String) (coins : List Coin),
      (symbol_to_id s coins = none ↔ ∀ c ∈ coins, pyLower c.symbol ≠ pyLower s) ∧
      (∀ i, symbol_to_id s coins = some i →
        ∃ pre c post, coins = pre ++ c :: post ∧ pyLower c.symbol = pyLower s ∧ c.id = i ∧
          ∀ d ∈ pre, pyLower d.symbol ≠ pyLower s)) ∧
    symbol_to_id "btc" [⟨"btc", "bitcoin"⟩] = some "bitcoin" ∧
    symbol_to_id "BTC" [⟨"btc", "bitcoin"⟩] = some "bitcoin" ∧
    symbol_to_id "Btc" [⟨"btc", "bitcoin"⟩] = some "bitcoin" ∧
    symbol_to_id "ZZZZ" [⟨"btc", "bitcoin"⟩] = none := by
  refine ⟨?_, by decide, by decide, by decide, by decide⟩
  intro s coins
  constructor
  · cases hf : coins.find? (fun c => pyLower c.symbol == pyLower s) with
    | some c =>
      simp only [symbol_to_id, hf]
      constructor
      · intro h; exact absurd h (by simp)
      · intro hall
        have hc := List.find?_some hf
        have hmem := List.mem_of_find?_eq_some hf
        rw [beq_iff_eq] at hc
        exact absurd hc (hall c hmem)
    | none =>
      simp only [symbol_to_id, hf]
      constructor
      · intro _ c hc
        have := List.find?_eq_none.1 hf c hc
        simpa using this
      · intro _; trivial
  · intro i hi
    simp only [symbol_to_id] at hi
    cases hf : coins.find? (fun c => pyLower c.symbol == pyLower s) with
    | none =>
      simp only [hf] at hi
      exact Option.noConfusion hi
    | some c =>
      simp only [hf] at hi
      injection hi with hi
      obtain ⟨pre, post, rfl, hpc, hpre⟩ := find?_first _ coins c hf
      refine ⟨pre, c, post, rfl, by simpa using hpc, hi, ?_⟩
      intro d hd
      have := hpre d hd
      simpa using this

/-- Witness for C5: the concrete resolutions of the claim. -/
theorem symbol_to_id_spec_witness :
    symbol_to_id "Btc" [⟨"btc", "bitcoin"⟩] = some "bitcoin" ∧
    symbol_to_id "ZZZZ" [⟨"btc", "bitcoin"⟩] = none :=
  ⟨symbol_to_id_spec.2.2.2.1, symbol_to_id_spec.2.2.2.2⟩

/-! ### Claim C6 -/

/--
Claim C6: when the parsed symbol does not resolve, the pipeline
short-circuits after resolution — no market-data, history or sentiment
request is made — and the handler answers HTTP 200 with the not-found
message as the `report` field, exactly as a successful analysis would be
returned.
-/
theorem handle_not_found (env : Env) (body : Option String) (tok : String)
    (hcmd : pyStrip (body.getD "") ≠ "")
    (htok : (pySplit (pyStrip (body.getD ""))).getLast? = some tok)
    (hres : symbol_to_id (pyUpper tok) env.coins = none) :
    handle_analyze env body = ((200, .report (notFoundMsg (pyUpper tok))), [.resolve]) := by
  simp only [handle_analyze, if_neg hcmd, htok]
  unfold analyze_asset analyze_pipeline
  simp only [hres]
  rfl

/-- Witness for C6: the command `analyze ZZZZ` against a list that only
knows `btc` yields a 200 response carrying the not-found message. -/
theorem handle_not_found_witness :
    handle_analyze envC3 (some "analyze ZZZZ") =
      ((200, .report (notFoundMsg "ZZZZ")), [.resolve]) := by
  have h := handle_not_found envC3 (some "analyze ZZZZ") "ZZZZ" (by decide) (by decide) (by decide)
  rw [h]
  rfl

/-! ### Claim C7 -/

theorem buildLines_isOk_fng (o : Overview) (t : TechLatest) (sup res : ℚ) (chart : String)
    (f1 f2 : String × String) :
    (buildLines o t sup res chart f1).isOk = (buildLines o t sup res chart f2).isOk := by
  unfold buildLines
  rw [exceptIsOk_map, exceptIsOk_map]

/--
Claim C7 (amended): when the sentiment request raises — timeout,
connection failure, or a malformed payload (the only ways the try block
can raise, since the response status is never inspected) — the exception
is absorbed: the reading becomes the sentinel `N/A`/`Unavailable` pair,
whether the run errors is unchanged by the sentiment outcome, and any
report produced carries the line `Fear & Greed Index: N/A (Unavailable)`.
A non-2xx response whose body still parses is not treated as a failure,
contrary to the claim as stated.
-/
theorem sentiment_failure_absorbed (env : Env) (sym : String)
    (h : env.sentiment = .netFail ∨ ∃ st, env.sentiment = .resp st none) :
    fngRead env.sentiment = ("N/A", "Unavailable") ∧
    (∀ s', ((analyze_pipeline { env with sentiment := s' } sym).1).isOk
        = ((analyze_pipeline env sym).1).isOk) ∧
    (∀ ls, (analyze_pipeline env sym).1 = .ok ls → symbol_to_id sym env.coins ≠ none →
      "Fear & Greed Index: N/A (Unavailable)" ∈ ls) := by
  have hna : fngRead env.sentiment = ("N/A", "Unavailable") := by
    rcases h with h | ⟨st, h⟩ <;> rw [h] <;> rfl
  refine ⟨hna, ?_, ?_⟩
  · intro s'
    unfold analyze_pipeline
    cases hid : symbol_to_id sym env.coins with
    | none => simp [hid]
    | some cid =>
      cases hov : fetch_market_overview env.overviewResp with
      | error e => simp [hid, hov]
      | ok ov =>
        cases hoh : fetch_ohlc env.ohlcResp with
        | error e => simp [hid, hov, hoh]
        | ok closes =>
          cases hemp : closes.isEmpty with
          | true => simp [hid, hov, hoh, hemp]
          | false =>
            simp only [hid, hov, hoh, hemp, Bool.false_eq_true, if_false]
            exact buildLines_isOk_fng ov (compute_technicals closes) _ _ _ _ _
  · intro ls hls hres
    unfold analyze_pipeline at hls
    cases hid : symbol_to_id sym env.coins with
    | none => exact absurd hid hres
    | some cid =>
      simp only [hid] at hls
      cases hov : fetch_market_overview env.overviewResp with
      | error e => simp only [hov] at hls; exact Except.noConfusion hls
      | ok ov =>
        simp only [hov] at hls
        cases hoh : fetch_ohlc env.ohlcResp with
        | error e => simp only [hoh] at hls; exact Except.noConfusion hls
        | ok closes =>
          simp only [hoh] at hls
          cases hemp : closes.isEmpty with
          | true => simp only [hemp, if_true] at hls; simp at hls
          | false =>
            simp only [hemp, Bool.false_eq_true, if_false, hna] at hls
            unfold buildLines at hls
            cases hm : moneyStrs ov with
            | error e => simp only [hm, Except.map] at hls; exact Except.noConfusion hls
            | ok ms =>
              rw [hm, exceptMap_ok] at hls
              simp only [Except.ok.injEq] at hls
              rw [← hls]
              exact (mkLines_mem ov (compute_technicals closes) _ _ _ _ ms).2.2.2.2.2.2.2

/-- Witness for C7: the healthy fixture with a timed-out sentiment request. -/
theorem sentiment_failure_absorbed_witness :
    fngRead envC7w.sentiment = ("N/A", "Unavailable") ∧
    (∀ s', ((analyze_pipeline { envC7w with sentiment := s' } "BTC").1).isOk
        = ((analyze_pipeline envC7w "BTC").1).isOk) ∧
    (∀ ls, (analyze_pipeline envC7w "BTC").1 = .ok ls →
      symbol_to_id "BTC" envC7w.coins ≠ none →
      "Fear & Greed Index: N/A (Unavailable)" ∈ ls) :=
  sentiment_failure_absorbed envC7w "BTC" (Or.inl rfl)

theorem str_ne_append_of_take (s t : String)
    (h : s.data.take t.data.length ≠ t.data) (x : String) : s ≠ t ++ x := by
  intro heq
  apply h
  have hd : s.data = t.data ++ x.data := by rw [heq]; rfl
  rw [hd, List.take_left]

section

attribute [local semireducible] Rat.add Rat.mul Rat.inv Rat.sub Rat.ofScientific

/-- Counterexample for C7 as stated: the sentiment code never inspects the
response status, so a 500 response with a well-formed payload is used as a
success — the report line carries the payload values, not the sentinel
`N/A (Unavailable)` the claim requires for every non-2xx response. -/
theorem sentiment_non2xx_payload_used_cx :
    envC7cx.sentiment = .resp 500 (some ("10", "Extreme Fear")) ∧
    fngRead envC7cx.sentiment = ("10", "Extreme Fear") ∧
    (∃ ls, (analyze_pipeline envC7cx "BTC").1 = .ok ls ∧
       "Fear & Greed Index: 10 (Extreme Fear)" ∈ ls ∧
       "Fear & Greed Index: N/A (Unavailable)" ∉ ls) := by
  refine ⟨rfl, rfl, ?_⟩
  unfold envC7cx
  rw [pipeline_envWith]
  refine ⟨_, rfl, ?_, ?_⟩
  · exact (mkLines_mem ovC (compute_technicals closesC) 100 100
      (String.mk (List.replicate 63 '▅')) (fngRead (.resp 500 (some ("10", "Extreme Fear"))))
      ("500.00", "600.00", "700.00", "800.00")).2.2.2.2.2.2.2
  · intro hmem
    have hif : (if ovC.description ≠ "" then
        ["Utility: " ++ pyReplaceNl ovC.description ++ "…"] else ([] : List String))
        = ["Utility: " ++ pyReplaceNl ovC.description ++ "…"] := if_pos (by decide)
    simp only [mkLines, hif, List.mem_append, List.mem_cons, List.not_mem_nil, or_false] at hmem
    rcases hmem with (((h|h|h|h)|h)|h|h|h|h|h|h|h|h|h|h|h|h|h|h|h|h|h|h|h|h|h|h)
    all_goals first
      | (first
          | simp only [String.append_assoc] at h
          | skip
         exact str_ne_append_of_take _ _ (by decide) _ h)
      | exact absurd h (by decide)

end

/-! ### Claim C8 -/

/--
Claim C8: an absent, empty, or whitespace-only command — anything whose
strip is empty — is rejected with status 400 and body
`\x7b"error": "No command provided."\x7d` before any pipeline stage runs:
no symbol resolution and no upstream request is performed.
-/
theorem handle_empty_command (env : Env) (body : Option String)
    (h : pyStrip (body.getD "") = "") :
    handle_analyze env body = ((400, .error "No command provided."), []) := by
  simp only [handle_analyze, h]
  rfl

/-- Witness for C8: a whitespace-only command. -/
theorem handle_empty_command_witness :
    handle_analyze envC3 (some "  \t ") = ((400, .error "No command provided."), []) :=
  handle_empty_command envC3 (some "  \t ") (by decide)

/-! ### Claims C9 and C10 -/

theorem strideAux_one {α : Type} : ∀ (l : List α) (i : ℕ), strideAux 1 i l = l := by
  intro l
  induction l with
  | nil => intro i; rfl
  | cons x rest ih =>
    intro i
    simp [strideAux, Nat.mod_one, ih]

theorem sparkline_length (l : List ℚ) : (sparkline l).length = l.length := by
  show (l.map _).length = l.length
  exact List.length_map _ _

theorem strideAux_length {α : Type} (k : ℕ) :
    ∀ (l : List α) (i : ℕ), (strideAux k i l).length
      = ((List.range' i l.length).filter (fun j => j % k == 0)).length := by
  intro l
  induction l with
  | nil => intro i; rfl
  | cons x rest ih =>
    intro i
    rw [List.length_cons, List.range'_succ]
    by_cases hi : i % k = 0
    · simp [strideAux, hi, List.filter_cons, ih]
    · simp [strideAux, hi, List.filter_cons, ih]

/--
Claim C9 (amended): for every positive width, a series shorter than the
width renders one glyph per input point, and otherwise the chart is the
sparkline of the stride-`len/width` sample — pure index striding, one
glyph per sampled point, no averaging; a 30-point series at width 60
gives 30 glyphs and a 600-point series at width 60 gives at most 60.
With `width = 0` (excluded here) the division in the source raises
`ZeroDivisionError` instead of rendering.
-/
theorem build_ascii_chart_sampling :
    (∀ (series : List ℚ) (width : ℕ), 1 ≤ width →
      (series.length < width →
        build_ascii_chart series width = some (sparkline series) ∧
        (sparkline series).length = series.length) ∧
      (width ≤ series.length →
        build_ascii_chart series width
          = some (sparkline (strideList series (series.length / width))) ∧
        (sparkline (strideList series (series.length / width))).length
          = (strideList series (series.length / width)).length)) ∧
    (∀ series : List ℚ, series.length = 30 →
      (build_ascii_chart series 60).map String.length = some 30) ∧
    (∀ series : List ℚ, series.length = 600 →
      ∃ s, build_ascii_chart series 60 = some s ∧ s.length ≤ 60) := by
  refine ⟨?_, ?_, ?_⟩
  · intro series width hw
    constructor
    · intro hlt
      unfold build_ascii_chart
      rw [if_pos hlt]
      exact ⟨rfl, sparkline_length series⟩
    · intro hge
      unfold build_ascii_chart
      rw [if_neg (by omega), if_neg (by omega)]
      exact ⟨rfl, sparkline_length _⟩
  · intro series h30
    unfold build_ascii_chart
    rw [if_pos (by omega)]
    simp [sparkline_length, h30]
  · intro series h600
    refine ⟨sparkline (strideList series (series.length / 60)), ?_, ?_⟩
    · unfold build_ascii_chart
      rw [if_neg (by omega), if_neg (by omega)]
    · rw [sparkline_length]
      unfold strideList
      rw [strideAux_length, h600]
      decide

/-- Witness for C9 at the two sizes of the claim. -/
theorem build_ascii_chart_sampling_witness :
    (build_ascii_chart (List.replicate 30 (0:ℚ)) 60).map String.length = some 30 ∧
    (∃ s, build_ascii_chart (List.replicate 600 (0:ℚ)) 60 = some s ∧ s.length ≤ 60) :=
  ⟨build_ascii_chart_sampling.2.1 _ (by simp),
   build_ascii_chart_sampling.2.2 _ (by simp)⟩

/-- Counterexample for C9 as stated: at `width = 0` the code raises
`ZeroDivisionError` (modelled `none`) instead of rendering glyphs. -/
theorem build_ascii_chart_width_zero_cx : build_ascii_chart [1, 2] 0 = none := by decide

/--
Claim C10 (amended): when `width ≤ L < 2 * width` the stride is 1, so the
chart renders one glyph per input point — `L` glyphs, which exceeds the
nominal width whenever `width < L`, though at `L = width` it equals the
width rather than strictly exceeding it.
-/
theorem build_ascii_chart_stride_one (series : List ℚ) (width : ℕ)
    (h1 : width ≤ series.length) (h2 : series.length < 2 * width) :
    ∃ s, build_ascii_chart series width = some s ∧ s.length = series.length ∧
      (width < series.length → width < s.length) := by
  have hdiv : series.length / width = 1 := by
    apply Nat.div_eq_of_lt_le <;> omega
  refine ⟨sparkline series, ?_, sparkline_length series, ?_⟩
  · unfold build_ascii_chart
    rw [if_neg (by omega), if_neg (by omega), hdiv]
    unfold strideList
    rw [strideAux_one]
  · intro h
    rw [sparkline_length]
    exact h

/-- Witness for C10: 90 points at width 60 render 90 glyphs. -/
theorem build_ascii_chart_stride_one_witness :
    ∃ s, build_ascii_chart (List.replicate 90 (0:ℚ)) 60 = some s ∧ s.length = 90 ∧
      (60 < 90 → 60 < s.length) := by
  have h := build_ascii_chart_stride_one (List.replicate 90 (0:ℚ)) 60 (by simp) (by simp)
  simpa using h

section

attribute [local semireducible] Rat.add Rat.mul Rat.inv Rat.sub Rat.ofScientific

/-- Counterexample for C10 as stated: a series of length exactly `width`
renders `width` glyphs — equal to, not strictly exceeding, the nominal
width. -/
theorem build_ascii_chart_equal_width_cx :
    (build_ascii_chart (List.replicate 60 (0:ℚ)) 60).map String.length = some 60 ∧
    ¬ (60 < 60) := ⟨by decide, by omega⟩

end
